import Mathlib

/-!
Verification development for the `record` execution tracer (`record.py`).

The tracer rewrites a Python function's statement tree so that after (and, for
compound statements, before) every executed line a hidden capture call
`_record_state_fn_hidden_123(lineno, locals())` stores `(lineno, deepcopy(locals))`
into a global record store; a wrapper dumps the store to a line-oriented trace
file after each successful invocation.

The development shallowly embeds:
  * the statement language the rewriter operates on (a faithful fragment of the
    Python 2 `ast` statement nodes the rewriter dispatches on:
    plain statements, `return`, `if`/`while`/`for` with `orelse`, and
    `TryExcept` with handlers);
  * `_make_record_state_call_expr`, `_make_return_trace_call_exprs` and
    `_fill_body_with_record` from `record.py`;
  * a big-step fuel interpreter for the statement language, with the record
    store threaded in writer style (executions only ever append snapshots,
    which is exactly what `_record_state_fn_hidden_123` does);
  * the `wrapped` closure and the dump helpers `dump_fn_source` /
    `dump_recorded_state`, together with the session state they touch
    (`_record_store_hidden_123['data']`, the `first_dump_call` flag, the file);
  * the registration bookkeeping of `record` (`_blocked`, `num_fns_recorded`);
  * a refined heap model of `_record_state_fn_hidden_123` exposing that
    `copy.deepcopy` severs all links from a snapshot to the live heap.
-/

namespace ExecutionTrace

/-- Runtime values of the modelled Python fragment.  Values in the main model
are pure (mathematical) data; the aliasing behaviour of mutable values is
modelled separately by the heap model at the end of the definitions section. -/
inductive Value where
  | none
  | bool (b : Bool)
  | int (n : Int)
  | list (elems : List Value)

/-- Structural value equality, as used by the `==` comparison. -/
def valueEq : Value → Value → Bool
  | .none, .none => true
  | .bool a, .bool b => a == b
  | .int a, .int b => a == b
  | .list a, .list b => valuesEq a b
  | _, _ => false
where
  valuesEq : List Value → List Value → Bool
    | [], [] => true
    | a :: as_, b :: bs => valueEq a b && valuesEq as_ bs
    | _, _ => false

/-- Python truthiness of a value. -/
def truthy : Value → Bool
  | .none => false
  | .bool b => b
  | .int n => n != 0
  | .list l => !l.isEmpty

/-- Exceptions that can be raised by the modelled fragment. -/
inductive ExcKind where
  | zeroDivisionError
  | nameError
  | typeError
  | userError (tag : Nat)
deriving DecidableEq

/-- Binary operators appearing in expressions. -/
inductive BinOp where
  | add | sub | mul | div | eq | lt
deriving DecidableEq

/-- Expressions.  `recordStateCall lineno` stands for the expression
`_record_state_fn_hidden_123(lineno, locals())` built by
`_make_record_state_call_expr`: a `Call` of the hidden record function on the
literal line number and the current local bindings. -/
inductive Expr where
  | const (v : Value)
  | name (id : String)
  | binop (op : BinOp) (left right : Expr)
  | recordStateCall (lineno : Nat)

/-- Statements.  This is the fragment of Python 2 `ast` statement nodes that
`_fill_body_with_record` dispatches on: `Return` is handled first; nodes with
a `body` attribute (`If`, `While`, `For`, `TryExcept`) have their nested
bodies rewritten; nodes with an `orelse` attribute likewise; `TryExcept`
additionally carries `handlers`; every other node is a plain statement.
Each constructor carries the node's `lineno`. -/
inductive Stmt where
  | passS (lineno : Nat)
  | assign (lineno : Nat) (target : String) (value : Expr)
  | exprStmt (lineno : Nat) (value : Expr)
  | raiseS (lineno : Nat) (exc : ExcKind)
  | ret (lineno : Nat) (value : Expr)
  | ifS (lineno : Nat) (test : Expr) (body orelse : List Stmt)
  | whileS (lineno : Nat) (test : Expr) (body orelse : List Stmt)
  | forS (lineno : Nat) (target : String) (iter : Expr) (body orelse : List Stmt)
  | tryExcept (lineno : Nat) (body : List Stmt) (handlers : List (Option ExcKind × Nat × List Stmt)) (orelse : List Stmt)

/-- Exception handlers of a `TryExcept` statement: an optional exception
filter (`none` is a bare `except:`), the handler's `lineno`, and its body. -/
abbrev Handler := Option ExcKind × Nat × List Stmt

/-- The `lineno` attribute of a statement node. -/
def stmtLineno : Stmt → Nat
  | .passS l => l
  | .assign l _ _ => l
  | .exprStmt l _ => l
  | .raiseS l _ => l
  | .ret l _ => l
  | .ifS l _ _ _ => l
  | .whileS l _ _ _ => l
  | .forS l _ _ _ _ => l
  | .tryExcept l _ _ _ => l

/-- `RETVAL_NAME = '_retval_hidden_123'`: the auxiliary variable the rewritten
`return` stores the return value in. -/
def RETVAL_NAME : String := "_retval_hidden_123"

/-- `_make_record_state_call_expr(lineno)` from `record.py`: builds
`ast.Expr(value=Call(_record_state_fn_hidden_123, [Num(lineno), locals()]))`
with the synthesized node's own `lineno`/`col_offset` set to `0`. -/
def _make_record_state_call_expr (lineno : Nat) : Stmt :=
  .exprStmt 0 (.recordStateCall lineno)

/-- `_make_return_trace_call_exprs(item)` from `record.py`: rewrites
`return value` into `_retval_hidden_123 = value`, a record-state call tagged
with the return's `lineno`, and `return _retval_hidden_123` (the synthesized
nodes carry `lineno = 0`). -/
def _make_return_trace_call_exprs (lineno : Nat) (value : Expr) : List Stmt :=
  [.assign 0 RETVAL_NAME value,
   _make_record_state_call_expr lineno,
   .ret 0 (.name RETVAL_NAME)]

mutual

/-- `_fill_body_with_record(original_body, prepend=False, lineno=None)` from
`record.py`.  When `prepend` is true the source asserts `lineno is not None`
and prepends a record-state call tagged `lineno`; every call site that passes
`prepend=True` passes a concrete `lineno`, so `lineno` is a plain `Nat` here
(the top-level call passes `prepend=False` and an unused `0`).
The loop body of the source is `fillItems`/`fillItem` below. -/
def _fill_body_with_record (original_body : List Stmt) (prepend : Bool) (lineno : Nat) : List Stmt :=
  (if prepend then [_make_record_state_call_expr lineno] else []) ++ fillItems original_body

/-- The `for item in original_body` loop of `_fill_body_with_record`: each
item contributes its rewritten statements to `new_body` in order. -/
def fillItems : List Stmt → List Stmt
  | [] => []
  | item :: rest => fillItem item ++ fillItems rest

/-- One iteration of the loop of `_fill_body_with_record`:
  * `Return` items are replaced by `_make_return_trace_call_exprs` (and the
    loop `continue`s: no trailing record call);
  * items with a `body` attribute get it rewritten with `prepend=True` at the
    item's `lineno`; items with an `orelse` attribute get it rewritten with
    `prepend=True` except for `TryExcept` (`prepend=False`), reusing the
    item's `lineno`; `TryExcept` handler bodies are rewritten with
    `prepend=False` at each handler's `lineno`; such items are `has_nested`
    and get no trailing record call;
  * every other item is emitted followed by a record call at its `lineno`. -/
def fillItem : Stmt → List Stmt
  | .ret lineno value => _make_return_trace_call_exprs lineno value
  | .ifS lineno test body orelse =>
      [.ifS lineno test (_fill_body_with_record body true lineno)
                        (_fill_body_with_record orelse true lineno)]
  | .whileS lineno test body orelse =>
      [.whileS lineno test (_fill_body_with_record body true lineno)
                           (_fill_body_with_record orelse true lineno)]
  | .forS lineno target iter body orelse =>
      [.forS lineno target iter (_fill_body_with_record body true lineno)
                                (_fill_body_with_record orelse true lineno)]
  | .tryExcept lineno body handlers orelse =>
      [.tryExcept lineno (_fill_body_with_record body true lineno)
                         (fillHandlers handlers)
                         (_fill_body_with_record orelse false lineno)]
  | item => [item, _make_record_state_call_expr (stmtLineno item)]

/-- The `for handler in item.handlers` loop: each handler body is rewritten
with `prepend=False` at the handler's `lineno`. -/
def fillHandlers : List (Option ExcKind × Nat × List Stmt) → List (Option ExcKind × Nat × List Stmt)
  | [] => []
  | (filt, hlineno, hbody) :: hs =>
      (filt, hlineno, _fill_body_with_record hbody false hlineno) :: fillHandlers hs

end

/-! ## Big-step interpreter for the statement fragment -/

/-- Local bindings of a frame, in binding order (`locals()`). -/
abbrev Env := List (String × Value)

/-- One entry of `_record_store_hidden_123['data']`: a `(lineno, locals)`
snapshot appended by `_record_state_fn_hidden_123`. -/
abbrev Snap := Nat × Env

/-- Look a name up in the local bindings. -/
def lookupEnv : Env → String → Option Value
  | [], _ => Option.none
  | (y, v) :: rest, x => if y = x then some v else lookupEnv rest x

/-- Bind a name: overwrite an existing binding in place, else append. -/
def setEnv : Env → String → Value → Env
  | [], x, v => [(x, v)]
  | (y, w) :: rest, x, v =>
      if y = x then (y, v) :: rest else (y, w) :: setEnv rest x v

/-- Semantics of the binary operators (Python 2 integer arithmetic;
`div` raises `ZeroDivisionError` on a zero divisor, operands of the wrong
shape raise `TypeError`). -/
def evalBinOp : BinOp → Value → Value → Except ExcKind Value
  | .add, .int a, .int b => .ok (.int (a + b))
  | .sub, .int a, .int b => .ok (.int (a - b))
  | .mul, .int a, .int b => .ok (.int (a * b))
  | .div, .int a, .int b =>
      if b = 0 then .error .zeroDivisionError else .ok (.int (a / b))
  | .eq, a, b => .ok (.bool (valueEq a b))
  | .lt, .int a, .int b => .ok (.bool (a < b))
  | _, _, _ => .error .typeError

/-- Evaluate an expression.  The second component is the list of snapshots the
evaluation appended to the global record store: the store is append-only
(`_record_state_fn_hidden_123` only ever does `store['data'].append(...)`), so
it is threaded in writer style.  `recordStateCall lineno` appends
`(lineno, deepcopy(locals))` and returns `None`; on the pure values of this
model `copy.deepcopy` is the identity (see the heap model below for the
aliasing content of the deep copy). -/
def eval : Expr → Env → Except ExcKind Value × List Snap
  | .const v, _ => (.ok v, [])
  | .name x, env =>
      match lookupEnv env x with
      | some v => (.ok v, [])
      | Option.none => (.error .nameError, [])
  | .binop op a b, env =>
      match eval a env with
      | (.error e, d) => (.error e, d)
      | (.ok va, d1) =>
          match eval b env with
          | (.error e, d2) => (.error e, d1 ++ d2)
          | (.ok vb, d2) => (evalBinOp op va vb, d1 ++ d2)
  | .recordStateCall lineno, env => (.ok .none, [(lineno, env)])

/-- How the execution of a statement list finished. -/
inductive Outcome where
  | normal
  | returned (v : Value)
  | raised (e : ExcKind)

/-- Result of executing statements: `none` means the `while`-iteration fuel
ran out; otherwise the outcome, the final local bindings, and the snapshots
appended to the record store, in order. -/
abbrev ExecRes := Option (Outcome × Env × List Snap)

/-- Prefix previously appended snapshots onto a result. -/
def prependSnaps (d : List Snap) : Outcome × Env × List Snap → Outcome × Env × List Snap
  | (o, env, d2) => (o, env, d ++ d2)

/-- Does a handler clause catch the given exception?  (`none` is a bare
`except:`.) -/
def handlerMatches : Option ExcKind → ExcKind → Bool
  | Option.none, _ => true
  | some k, e => k = e

/-- Lists have positive size, used by the termination measures below. -/
theorem sizeOfListPos {α : Type} [SizeOf α] (l : List α) : 0 < sizeOf l := by
  cases l <;> simp_arith

mutual

/-- Execute one statement.  `fuel` bounds the number of `while` loop
iterations; it is consumed only when a `while` guard evaluates truthy, so
instrumented and uninstrumented runs of the same source consume it in
lockstep. -/
def execStmt : Nat → Stmt → Env → ExecRes
  | _, .passS _, env => some (.normal, env, [])
  | _, .assign _ x e, env =>
      match eval e env with
      | (.ok v, d) => some (.normal, setEnv env x v, d)
      | (.error exc, d) => some (.raised exc, env, d)
  | _, .exprStmt _ e, env =>
      match eval e env with
      | (.ok _, d) => some (.normal, env, d)
      | (.error exc, d) => some (.raised exc, env, d)
  | _, .raiseS _ exc, env => some (.raised exc, env, [])
  | _, .ret _ e, env =>
      match eval e env with
      | (.ok v, d) => some (.returned v, env, d)
      | (.error exc, d) => some (.raised exc, env, d)
  | fuel, .ifS _ c b els, env =>
      match eval c env with
      | (.error exc, d) => some (.raised exc, env, d)
      | (.ok v, d) =>
          (if truthy v then execBody fuel b env else execBody fuel els env).map
            (prependSnaps d)
  | fuel, .whileS l c b els, env =>
      match eval c env with
      | (.error exc, d) => some (.raised exc, env, d)
      | (.ok v, d) =>
          if truthy v then
            match fuel with
            | 0 => Option.none
            | fuel' + 1 =>
                match execBody fuel' b env with
                | Option.none => Option.none
                | some (.normal, env', d2) =>
                    (execStmt fuel' (.whileS l c b els) env').map
                      (prependSnaps (d ++ d2))
                | some (.returned v', env', d2) => some (.returned v', env', d ++ d2)
                | some (.raised exc, env', d2) => some (.raised exc, env', d ++ d2)
          else
            (execBody fuel els env).map (prependSnaps d)
  | fuel, .forS _ x it b els, env =>
      match eval it env with
      | (.error exc, d) => some (.raised exc, env, d)
      | (.ok (.list items), d) => (execFor fuel x items b els env).map (prependSnaps d)
      | (.ok _, d) => some (.raised .typeError, env, d)
  | fuel, .tryExcept _ b hs els, env =>
      match execBody fuel b env with
      | Option.none => Option.none
      | some (.raised exc, env', d) => (execHandlers fuel exc hs env').map (prependSnaps d)
      | some (.normal, env', d) => (execBody fuel els env').map (prependSnaps d)
      | some (.returned v, env', d) => some (.returned v, env', d)
termination_by fuel s _ => (fuel, sizeOf s, 0)
decreasing_by
  all_goals simp_wf
  all_goals first
    | (apply Prod.Lex.right
       first
         | (apply Prod.Lex.left
            first
              | omega
              | exact Nat.lt_add_of_pos_left (sizeOfListPos _)
              | exact Nat.lt_add_of_pos_right (sizeOfListPos _))
         | (apply Prod.Lex.right; omega))
    | (apply Prod.Lex.left
       first
         | omega
         | exact Nat.lt_add_of_pos_left (sizeOfListPos _)
         | exact Nat.lt_add_of_pos_right (sizeOfListPos _))

/-- Iterate a `for` loop over the elements of the evaluated iterable; the
`orelse` body runs when the iteration finishes without `return`/exception. -/
def execFor : Nat → String → List Value → List Stmt → List Stmt → Env → ExecRes
  | fuel, _, [], _, els, env => execBody fuel els env
  | fuel, x, v :: vs, b, els, env =>
      match execBody fuel b (setEnv env x v) with
      | Option.none => Option.none
      | some (.normal, env', d) => (execFor fuel x vs b els env').map (prependSnaps d)
      | some (.returned v', env', d) => some (.returned v', env', d)
      | some (.raised exc, env', d) => some (.raised exc, env', d)
termination_by fuel _ items b els _ => (fuel, sizeOf b + sizeOf els, items.length + 1)
decreasing_by
  all_goals simp_wf
  all_goals first
    | (apply Prod.Lex.right
       first
         | (apply Prod.Lex.left
            first
              | omega
              | exact Nat.lt_add_of_pos_left (sizeOfListPos _)
              | exact Nat.lt_add_of_pos_right (sizeOfListPos _))
         | (apply Prod.Lex.right; omega))
    | (apply Prod.Lex.left
       first
         | omega
         | exact Nat.lt_add_of_pos_left (sizeOfListPos _)
         | exact Nat.lt_add_of_pos_right (sizeOfListPos _))

/-- Select and run the first matching handler clause; an unhandled exception
keeps propagating. -/
def execHandlers : Nat → ExcKind → List (Option ExcKind × Nat × List Stmt) → Env → ExecRes
  | _, exc, [], env => some (.raised exc, env, [])
  | fuel, exc, (filt, _, hbody) :: hs, env =>
      if handlerMatches filt exc then execBody fuel hbody env
      else execHandlers fuel exc hs env
termination_by fuel _ hs _ => (fuel, sizeOf hs, 0)
decreasing_by
  all_goals simp_wf
  all_goals first
    | (apply Prod.Lex.right
       first
         | (apply Prod.Lex.left
            first
              | omega
              | exact Nat.lt_add_of_pos_left (sizeOfListPos _)
              | exact Nat.lt_add_of_pos_right (sizeOfListPos _))
         | (apply Prod.Lex.right; omega))
    | (apply Prod.Lex.left
       first
         | omega
         | exact Nat.lt_add_of_pos_left (sizeOfListPos _)
         | exact Nat.lt_add_of_pos_right (sizeOfListPos _))

/-- Execute a statement list in order; `return` and exceptions abort the
rest of the list. -/
def execBody : Nat → List Stmt → Env → ExecRes
  | _, [], env => some (.normal, env, [])
  | fuel, s :: rest, env =>
      match execStmt fuel s env with
      | Option.none => Option.none
      | some (.normal, env', d) => (execBody fuel rest env').map (prependSnaps d)
      | some (.returned v, env', d) => some (.returned v, env', d)
      | some (.raised exc, env', d) => some (.raised exc, env', d)
termination_by fuel l _ => (fuel, sizeOf l, 0)
decreasing_by
  all_goals simp_wf
  all_goals first
    | (apply Prod.Lex.right
       first
         | (apply Prod.Lex.left
            first
              | omega
              | exact Nat.lt_add_of_pos_left (sizeOfListPos _)
              | exact Nat.lt_add_of_pos_right (sizeOfListPos _))
         | (apply Prod.Lex.right; omega))
    | (apply Prod.Lex.left
       first
         | omega
         | exact Nat.lt_add_of_pos_left (sizeOfListPos _)
         | exact Nat.lt_add_of_pos_right (sizeOfListPos _))

end


/-! ## The decorator wrapper, record store and dump protocol -/

/-- A function definition: parameter names and body statements. -/
structure FnDef where
  params : List String
  body : List Stmt

/-- The frame a call starts with: parameters bound to arguments. -/
def initEnv (params : List String) (args : List Value) : Env :=
  params.zip args

/-- One line of the trace file: the source dump `{"source": ...}` written by
`dump_fn_source`, or an execution dump `{"data": ...}` written by
`dump_recorded_state`. -/
inductive TraceLine where
  | sourceDump (src : String)
  | executionDump (data : List Snap)

/-- The process-wide tracing state touched by `wrapped`:
`_record_store_hidden_123['data']`, the closure flag `first_dump_call`
(set to `True` at decoration time and, in `record.py`, never reassigned), and
the lines written to the trace file so far. -/
structure SessionState where
  store_data : List Snap
  first_dump_call : Bool
  file : List TraceLine

/-- The state right after decoration: empty record store, `first_dump_call =
True`, nothing written to the file yet. -/
def initSession : SessionState :=
  { store_data := [], first_dump_call := true, file := [] }

/-- `dump_recorded_state(file)`: appends one `{"data": ...}` line holding the
whole current record store. -/
def dump_recorded_state (st : SessionState) : SessionState :=
  { st with file := st.file ++ [.executionDump st.store_data] }

/-- `dump_fn_source(file, source)`: appends one `{"source": ...}` line. -/
def dump_fn_source (st : SessionState) (source : String) : SessionState :=
  { st with file := st.file ++ [.sourceDump source] }

/-- The instrumented body installed by `record`:
`_fill_body_with_record(original_body)`, i.e. `prepend=False` (and an unused
line marker). -/
def instrumentedBody (f : FnDef) : List Stmt :=
  _fill_body_with_record f.body false 0

/-- The `wrapped` closure returned by `record`, one invocation:
run the instrumented function (its snapshot appends land in the global
record store even if it raises); if it raises, propagate the exception with
no dump; otherwise dump the source when `first_dump_call` is (still) true and
then dump the recorded state, and hand the return value through.  `none`
means the modelled invocation ran out of `while` fuel. -/
def wrapped (fuel : Nat) (f : FnDef) (source : String) (args : List Value)
    (st : SessionState) : Option (Except ExcKind Value × SessionState) :=
  match execBody fuel (instrumentedBody f) (initEnv f.params args) with
  | Option.none => Option.none
  | some (outcome, _, d) =>
      let st1 : SessionState := { st with store_data := st.store_data ++ d }
      match outcome with
      | .raised exc => some (.error exc, st1)
      | .normal =>
          let st2 := if st1.first_dump_call then dump_fn_source st1 source else st1
          some (.ok .none, dump_recorded_state st2)
      | .returned v =>
          let st2 := if st1.first_dump_call then dump_fn_source st1 source else st1
          some (.ok v, dump_recorded_state st2)

/-- Repeated invocations of the traced function, threading the session
state through. -/
def runCalls (fuel : Nat) (f : FnDef) (source : String) :
    List (List Value) → SessionState → Option (List (Except ExcKind Value) × SessionState)
  | [], st => some ([], st)
  | args :: rest, st =>
      match wrapped fuel f source args st with
      | Option.none => Option.none
      | some (r, st1) =>
          match runCalls fuel f source rest st1 with
          | Option.none => Option.none
          | some (rs, st2) => some (r :: rs, st2)

/-- Calling the original, undecorated function: run the unrewritten body on
the same initial frame and read the call result off the outcome (falling off
the end of a Python function returns `None`). -/
def callOriginal (fuel : Nat) (f : FnDef) (args : List Value) :
    Option (Except ExcKind Value) :=
  (execBody fuel f.body (initEnv f.params args)).map fun r =>
    match r.1 with
    | .normal => .ok .none
    | .returned v => .ok v
    | .raised e => .error e

/-! ## Registration bookkeeping of `record` -/

/-- Errors the decorator itself can raise: the
`ValueError('Cannot record more than one function at a time.')` guard, and a
failure of `inspect.getsource` on a function with no retrievable source. -/
inductive RecordError where
  | multipleFunctions
  | sourceUnavailable
deriving DecidableEq

/-- What a (non-raising) decoration attempt produces: the function returned
unchanged by the `_blocked` re-entrancy guard, or a successful registration
of the instrumented wrapper. -/
inductive RecordResult where
  | returnedOriginal
  | registered
deriving DecidableEq

/-- The module-level registration state of `record.py`: the `_blocked`
re-entrancy flag and the `num_fns_recorded` counter. -/
structure DecoratorState where
  blocked : Bool
  num_fns_recorded : Nat
deriving DecidableEq

/-- The registration path of `record(f)`, in source order: if `_blocked`,
return `f` unchanged; if `num_fns_recorded` is truthy, raise the
"cannot record more than one function" `ValueError`; otherwise increment
`num_fns_recorded` and call `inspect.getsource(f)`, whose failure propagates
with the counter already incremented (no rollback).  On success `_blocked`
is set around the `exec` and reset, leaving it `False` again. -/
def record_setup (st : DecoratorState) (sourceAvailable : Bool) :
    DecoratorState × Except RecordError RecordResult :=
  match st.blocked with
  | true => (st, .ok .returnedOriginal)
  | false =>
      match st.num_fns_recorded with
      | n + 1 => ({ st with num_fns_recorded := n + 1 }, .error .multipleFunctions)
      | 0 =>
          let st1 : DecoratorState := { st with num_fns_recorded := 1 }
          match sourceAvailable with
          | false => (st1, .error .sourceUnavailable)
          | true => (st1, .ok .registered)

/-! ## Heap model of `_record_state_fn_hidden_123`

The interpreter above works on pure values, for which `copy.deepcopy` is the
identity.  To model what the deep copy buys (claim C9), this refinement gives
the capture function a heap: locals map names to addresses, mutable objects
live at addresses, and `copy.deepcopy` resolves an address into a pure value
with no remaining reference into the heap. -/

/-- Heap addresses (object identities). -/
abbrev Addr := Nat

/-- A heap object: an immutable primitive, or a mutable list object whose
elements are references to further objects. -/
inductive HVal where
  | prim (v : Value)
  | listH (elems : List Addr)

/-- The heap: which object each address currently holds. -/
abbrev Heap := List (Addr × HVal)

/-- Look an address up in the heap. -/
def lookupHeap : Heap → Addr → Option HVal
  | [], _ => Option.none
  | (b, hv) :: rest, a => if b = a then some hv else lookupHeap rest a

/-- Overwrite the object stored at an address (in-place mutation), else
allocate it. -/
def setHeap : Heap → Addr → HVal → Heap
  | [], a, hv => [(a, hv)]
  | (b, w) :: rest, a, hv =>
      if b = a then (b, hv) :: rest else (b, w) :: setHeap rest a hv

/-- `copy.deepcopy` of the object at an address: chase references and build a
pure value that shares no structure with the heap.  `fuel` bounds the chased
depth; a dangling reference or exhausted fuel gives `none`. -/
def deepcopyAddr : Nat → Heap → Addr → Option Value
  | 0, _, _ => Option.none
  | fuel + 1, h, a =>
      match lookupHeap h a with
      | some (.prim v) => some v
      | some (.listH elems) => (elems.mapM (deepcopyAddr fuel h)).map Value.list
      | Option.none => Option.none

/-- `copy.deepcopy(f_locals)`: each local binding is deep-copied. -/
def deepcopyLocals (fuel : Nat) (h : Heap) (f_locals : List (String × Addr)) :
    List (String × Option Value) :=
  f_locals.map fun p => (p.1, deepcopyAddr fuel h p.2)

/-- A machine state as seen by the capture function: the heap, the frame's
local reference bindings, and `_record_store_hidden_123['data']`. -/
structure HMachine where
  heap : Heap
  f_locals : List (String × Addr)
  store : List (Nat × List (String × Option Value))

/-- `_record_state_fn_hidden_123(lineno, f_locals)` on the heap model:
appends `(lineno, copy.deepcopy(f_locals))` to the record store. -/
def _record_state_fn_hidden_123 (fuel lineno : Nat) (m : HMachine) : HMachine :=
  { m with store := m.store ++ [(lineno, deepcopyLocals fuel m.heap m.f_locals)] }

/-- Mutations user code can perform after a capture point: mutating the
object behind an address in place, or rebinding a local name to another
object. -/
inductive MutOp where
  | mutate (a : Addr) (hv : HVal)
  | rebind (x : String) (a : Addr)

/-- Apply one mutation to the machine. -/
def applyMutOp : MutOp → HMachine → HMachine
  | .mutate a hv, m => { m with heap := setHeap m.heap a hv }
  | .rebind x a, m => { m with f_locals := setEnvA m.f_locals x a }
where
  setEnvA : List (String × Addr) → String → Addr → List (String × Addr)
    | [], x, a => [(x, a)]
    | (y, b) :: rest, x, a =>
        if y = x then (y, a) :: rest else (y, b) :: setEnvA rest x a

/-- Apply a sequence of mutations. -/
def applyMutOps (ops : List MutOp) (m : HMachine) : HMachine :=
  ops.foldl (fun m op => applyMutOp op m) m


/-- Projection of an execution result onto outcome and final locals,
forgetting appended snapshots. -/
def outcomeEnv (r : ExecRes) : Option (Outcome × Env) :=
  r.map fun x => (x.1, x.2.1)

/-- How instrumentation transforms the observable result of a body: the
outcome is unchanged, and on the `returned` path the locals additionally
hold `_retval_hidden_123` bound to the returned value. -/
def instrStep : Outcome × Env → Outcome × Env
  | (.returned v, env) => (.returned v, setEnv env RETVAL_NAME v)
  | (o, env) => (o, env)

/-- Is a trace line a source dump? -/
def isSourceDump : TraceLine → Bool
  | .sourceDump _ => true
  | .executionDump _ => false

/-- Is a trace line an execution dump? -/
def isExecutionDump : TraceLine → Bool
  | .sourceDump _ => false
  | .executionDump _ => true

/-! ## Helper lemmas -/

theorem lookupEnv_setEnv_self (env : Env) (x : String) (v : Value) :
    lookupEnv (setEnv env x v) x = some v := by
  induction env with
  | nil => simp [setEnv, lookupEnv]
  | cons p rest ih =>
      obtain ⟨y, w⟩ := p
      by_cases h : y = x <;> simp [setEnv, lookupEnv, h, ih]

theorem applyMutOp_store (op : MutOp) (m : HMachine) :
    (applyMutOp op m).store = m.store := by
  cases op <;> rfl

theorem applyMutOps_store (ops : List MutOp) (m : HMachine) :
    (applyMutOps ops m).store = m.store := by
  induction ops generalizing m with
  | nil => rfl
  | cons op rest ih =>
      show (applyMutOps rest (applyMutOp op m)).store = m.store
      rw [ih, applyMutOp_store]

/-! ## Claims -/

/-- Claim C1: placement of capture calls by the statement-tree rewriter.
For every statement tree passed to `_fill_body_with_record`:
a `prepend` rewrite starts with a capture call tagged with the given marker;
a plain statement (`pass`, assignment, expression statement, `raise` — a
simple statement other than `return`, which claim C2 covers) is emitted
followed by a capture call tagged with its own line marker; a statement
owning a nested body (`if`/`while`/`for` branch or loop body) has every
nested body recursively rewritten with a prepend capture call tagged with
the owning statement's line marker and receives no trailing capture call;
a `try/except` has its handler bodies (and its `else` branch) recursively
rewritten without a prepend capture call, again with no trailing capture
call.  Each equation emits the rewritten statements in source order, so the
relative order of the original statements of every body is preserved. -/
theorem fill_body_with_record_placement :
    ∀ (body rest b els : List Stmt) (hs hs2 : List Handler) (ln l hl : Nat)
      (x : String) (e c it : Expr) (exc : ExcKind) (filt : Option ExcKind),
    (_fill_body_with_record body true ln
        = _make_record_state_call_expr ln :: _fill_body_with_record body false ln)
    ∧ (_fill_body_with_record (.passS l :: rest) false ln
        = .passS l :: _make_record_state_call_expr l :: _fill_body_with_record rest false ln)
    ∧ (_fill_body_with_record (.assign l x e :: rest) false ln
        = .assign l x e :: _make_record_state_call_expr l
            :: _fill_body_with_record rest false ln)
    ∧ (_fill_body_with_record (.exprStmt l e :: rest) false ln
        = .exprStmt l e :: _make_record_state_call_expr l
            :: _fill_body_with_record rest false ln)
    ∧ (_fill_body_with_record (.raiseS l exc :: rest) false ln
        = .raiseS l exc :: _make_record_state_call_expr l
            :: _fill_body_with_record rest false ln)
    ∧ (_fill_body_with_record (.ifS l c b els :: rest) false ln
        = .ifS l c (_fill_body_with_record b true l) (_fill_body_with_record els true l)
            :: _fill_body_with_record rest false ln)
    ∧ (_fill_body_with_record (.whileS l c b els :: rest) false ln
        = .whileS l c (_fill_body_with_record b true l) (_fill_body_with_record els true l)
            :: _fill_body_with_record rest false ln)
    ∧ (_fill_body_with_record (.forS l x it b els :: rest) false ln
        = .forS l x it (_fill_body_with_record b true l) (_fill_body_with_record els true l)
            :: _fill_body_with_record rest false ln)
    ∧ (_fill_body_with_record (.tryExcept l b hs els :: rest) false ln
        = .tryExcept l (_fill_body_with_record b true l) (fillHandlers hs)
            (_fill_body_with_record els false l)
            :: _fill_body_with_record rest false ln)
    ∧ (fillHandlers ((filt, hl, b) :: hs2)
        = (filt, hl, _fill_body_with_record b false hl) :: fillHandlers hs2) := by
  intro body rest b els hs hs2 ln l hl x e c it exc filt
  refine ⟨?_, ?_, ?_, ?_, ?_, ?_, ?_, ?_, ?_, ?_⟩ <;>
    simp [_fill_body_with_record, fillItems, fillItem, fillHandlers, stmtLineno]

/-- Claim C2: rewriting of `return` statements.  A `return` is replaced by
exactly the three statements of `_make_return_trace_call_exprs` — an
assignment of the return expression into the private `_retval_hidden_123`
binding, a capture call tagged with the return statement's line marker, and
a `return` of the binding — with no capture call emitted after them.
Semantically, when the return expression evaluates to `v` the rewritten
statements return exactly `v` (the value the original `return` produces),
and the single snapshot taken at the return point has the about-to-be
returned value bound to `_retval_hidden_123`. -/
theorem return_statement_rewrite :
    ∀ (l ln : Nat) (e : Expr) (rest : List Stmt),
    (_fill_body_with_record (.ret l e :: rest) false ln
        = _make_return_trace_call_exprs l e ++ _fill_body_with_record rest false ln)
    ∧ (_make_return_trace_call_exprs l e
        = [.assign 0 RETVAL_NAME e, .exprStmt 0 (.recordStateCall l),
           .ret 0 (.name RETVAL_NAME)])
    ∧ (∀ (fuel : Nat) (env : Env) (v : Value) (d : List Snap),
        eval e env = (.ok v, d) →
          execBody fuel (_make_return_trace_call_exprs l e) env
            = some (.returned v, setEnv env RETVAL_NAME v,
                d ++ [(l, setEnv env RETVAL_NAME v)])
          ∧ lookupEnv (setEnv env RETVAL_NAME v) RETVAL_NAME = some v
          ∧ execBody fuel [.ret l e] env = some (.returned v, env, d)) := by
  intro l ln e rest
  refine ⟨?_, ?_, ?_⟩
  · simp [_fill_body_with_record, fillItems, fillItem]
  · simp [_make_return_trace_call_exprs, _make_record_state_call_expr]
  · intro fuel env v d h
    refine ⟨?_, lookupEnv_setEnv_self env RETVAL_NAME v, ?_⟩
    · simp [_make_return_trace_call_exprs, _make_record_state_call_expr,
        execBody, execStmt, h, eval, prependSnaps, lookupEnv_setEnv_self]
    · simp [execBody, execStmt, h]

/-- Witness for claim C2 at the concrete return `return 5` on line 3 in an
empty frame. -/
theorem return_statement_rewrite_witness :
    (eval (.const (.int 5)) [] = (.ok (.int 5), []))
    ∧ (execBody 1 (_make_return_trace_call_exprs 3 (.const (.int 5))) []
          = some (.returned (.int 5), setEnv [] RETVAL_NAME (.int 5),
              [] ++ [(3, setEnv [] RETVAL_NAME (.int 5))])
        ∧ lookupEnv (setEnv [] RETVAL_NAME (.int 5)) RETVAL_NAME = some (.int 5)
        ∧ execBody 1 [.ret 3 (.const (.int 5))] [] = some (.returned (.int 5), [], [])) :=
  ⟨rfl, ((return_statement_rewrite 3 0 (.const (.int 5)) []).2.2 1 [] (.int 5) [] rfl)⟩

/-- Claim C4: once a function has been successfully registered, every
subsequent decoration attempt (`_blocked` is `False` outside the `exec`, the
counter is nonzero) raises the `ValueError` — it is never silently
ignored. -/
theorem record_rejects_second_registration
    (st st1 : DecoratorState) (h : record_setup st true = (st1, .ok .registered)) :
    ∀ sourceAvailable : Bool,
      (record_setup st1 sourceAvailable).2 = .error .multipleFunctions := by
  intro sourceAvailable
  obtain ⟨b, n⟩ := st
  cases b with
  | true => simp [record_setup] at h
  | false =>
      cases n with
      | zero =>
          simp [record_setup] at h
          subst h
          rfl
      | succ n => simp [record_setup] at h

/-- Witness for claim C4: registering from the initial module state, then
attempting a second registration. -/
theorem record_rejects_second_registration_witness :
    (record_setup ⟨false, 0⟩ true = (⟨false, 1⟩, .ok .registered))
    ∧ ∀ sourceAvailable : Bool,
        (record_setup ⟨false, 1⟩ sourceAvailable).2 = .error .multipleFunctions :=
  ⟨rfl, record_rejects_second_registration ⟨false, 0⟩ ⟨false, 1⟩ rfl⟩

/-- Claim C10: when `inspect.getsource` fails after the single-function
check passed, `num_fns_recorded` has already been incremented and is not
rolled back, so every later decoration attempt raises the "cannot record
more than one function" error even though nothing was instrumented. -/
theorem failed_decoration_consumes_registration_slot
    (st st1 : DecoratorState) (h : record_setup st false = (st1, .error .sourceUnavailable)) :
    st1.num_fns_recorded = 1
    ∧ ∀ sourceAvailable : Bool,
        (record_setup st1 sourceAvailable).2 = .error .multipleFunctions := by
  obtain ⟨b, n⟩ := st
  cases b with
  | true => simp [record_setup] at h
  | false =>
      cases n with
      | zero =>
          simp [record_setup] at h
          subst h
          exact ⟨rfl, fun _ => rfl⟩
      | succ n => simp [record_setup] at h

/-- Witness for claim C10: a function without retrievable source fails to
decorate from the initial state, and the slot stays consumed. -/
theorem failed_decoration_consumes_registration_slot_witness :
    (record_setup ⟨false, 0⟩ false = (⟨false, 1⟩, .error .sourceUnavailable))
    ∧ ((⟨false, 1⟩ : DecoratorState).num_fns_recorded = 1
        ∧ ∀ sourceAvailable : Bool,
            (record_setup ⟨false, 1⟩ sourceAvailable).2 = .error .multipleFunctions) :=
  ⟨rfl, failed_decoration_consumes_registration_slot ⟨false, 0⟩ ⟨false, 1⟩ rfl⟩

/-- Claim C9: `_record_state_fn_hidden_123` appends one snapshot whose
values are deep copies resolved against the heap as it is at capture time,
and any sequence of later mutations — in-place mutation of an object behind
an address, or rebinding of a local — leaves every previously recorded
snapshot (including the one just taken) unchanged. -/
theorem capture_deepcopies_and_mutations_preserve_snapshots
    (fuel lineno : Nat) (m : HMachine) (ops : List MutOp) :
    (_record_state_fn_hidden_123 fuel lineno m).store
        = m.store ++ [(lineno, deepcopyLocals fuel m.heap m.f_locals)]
    ∧ (applyMutOps ops (_record_state_fn_hidden_123 fuel lineno m)).store
        = (_record_state_fn_hidden_123 fuel lineno m).store :=
  ⟨rfl, applyMutOps_store ops _⟩


/-! ## Helper lemmas for the instrumentation equivalence -/

theorem prependSnaps_eq (d : List Snap) (x : Outcome × Env × List Snap) :
    prependSnaps d x = (x.1, x.2.1, d ++ x.2.2) := by
  obtain ⟨o, e, d2⟩ := x
  rfl

theorem prependSnaps_comp (d1 d2 : List Snap) (x : Outcome × Env × List Snap) :
    prependSnaps d1 (prependSnaps d2 x) = prependSnaps (d1 ++ d2) x := by
  obtain ⟨o, e, d⟩ := x
  simp [prependSnaps]

theorem outcomeEnv_map_prependSnaps (d : List Snap) (r : ExecRes) :
    outcomeEnv (r.map (prependSnaps d)) = outcomeEnv r := by
  cases r with
  | none => rfl
  | some x => obtain ⟨o, e, d2⟩ := x; rfl

theorem outcomeEnv_eq_none_iff {r : ExecRes} :
    outcomeEnv r = Option.none ↔ r = Option.none := by
  cases r with
  | none => simp [outcomeEnv]
  | some x => simp [outcomeEnv]

theorem outcomeEnv_eq_some_iff {r : ExecRes} {o : Outcome} {e : Env} :
    outcomeEnv r = some (o, e) ↔ ∃ d, r = some (o, e, d) := by
  cases r with
  | none => simp [outcomeEnv]
  | some x =>
      obtain ⟨o2, e2, d2⟩ := x
      simp [outcomeEnv]

theorem execBody_append (fuel : Nat) (l1 l2 : List Stmt) (env : Env) :
    execBody fuel (l1 ++ l2) env =
      match execBody fuel l1 env with
      | Option.none => Option.none
      | some (.normal, env1, d) => (execBody fuel l2 env1).map (prependSnaps d)
      | some (.returned v, env1, d) => some (.returned v, env1, d)
      | some (.raised e, env1, d) => some (.raised e, env1, d) := by
  induction l1 generalizing env with
  | nil =>
      simp [execBody]
      cases hr : execBody fuel l2 env with
      | none => rfl
      | some x => obtain ⟨o, e, d⟩ := x; simp [prependSnaps]
  | cons s l1x ih =>
      cases hs : execStmt fuel s env with
      | none => simp [execBody, hs]
      | some x =>
          obtain ⟨o, e, d⟩ := x
          cases o with
          | normal =>
              simp only [List.cons_append, execBody, hs, ih]
              cases hr : execBody fuel l1x e with
              | none => rfl
              | some y =>
                  obtain ⟨o2, e2, d2⟩ := y
                  cases o2 with
                  | normal =>
                      simp only [Option.map_map]
                      congr 1
                      funext x
                      simp [prependSnaps_eq, Function.comp_def, List.append_assoc]
                  | returned => simp [prependSnaps_eq]
                  | raised => simp [prependSnaps_eq]
          | returned => simp [execBody, hs]
          | raised => simp [execBody, hs]

theorem execBody_record_cons (fuel ln : Nat) (rest : List Stmt) (env : Env) :
    execBody fuel (_make_record_state_call_expr ln :: rest) env
      = (execBody fuel rest env).map (prependSnaps [(ln, env)]) := by
  simp [execBody, execStmt, _make_record_state_call_expr, eval]

theorem outcomeEnv_execBody_singleton (fuel : Nat) (s : Stmt) (env : Env) :
    outcomeEnv (execBody fuel [s] env) = outcomeEnv (execStmt fuel s env) := by
  cases hs : execStmt fuel s env with
  | none => simp [execBody, hs, outcomeEnv]
  | some x =>
      obtain ⟨o, e, d⟩ := x
      cases o <;> simp [execBody, hs, outcomeEnv, prependSnaps]


/-- One-step unfolding of `execStmt` at a `while` statement (stated
separately because the defining equation is self-referential, which an
unrestricted rewrite would loop on). -/
theorem execStmt_while_eq (fuel l : Nat) (c : Expr) (b els : List Stmt) (env : Env) :
    execStmt fuel (.whileS l c b els) env =
      match eval c env with
      | (.error exc, d) => some (.raised exc, env, d)
      | (.ok v, d) =>
          if truthy v then
            match fuel with
            | 0 => Option.none
            | fuel1 + 1 =>
                match execBody fuel1 b env with
                | Option.none => Option.none
                | some (.normal, env1, d2) =>
                    (execStmt fuel1 (.whileS l c b els) env1).map (prependSnaps (d ++ d2))
                | some (.returned v2, env1, d2) => some (.returned v2, env1, d ++ d2)
                | some (.raised exc, env1, d2) => some (.raised exc, env1, d ++ d2)
          else (execBody fuel els env).map (prependSnaps d) := by
  rw [execStmt.eq_def]

mutual

/-- Instrumenting a body preserves its observable execution: the outcome and
final locals agree up to `instrStep` (the `returned` path additionally binds
`_retval_hidden_123`), with identical `while`-fuel behaviour. -/
theorem instr_equiv_body (fuel : Nat) (body : List Stmt) (p : Bool) (ln : Nat) (env : Env) :
    outcomeEnv (execBody fuel (_fill_body_with_record body p ln) env)
      = (outcomeEnv (execBody fuel body env)).map instrStep := by
  cases p with
  | true =>
      have h1 : _fill_body_with_record body true ln
          = _make_record_state_call_expr ln :: _fill_body_with_record body false ln := by
        simp [_fill_body_with_record]
      rw [h1, execBody_record_cons, outcomeEnv_map_prependSnaps]
      exact instr_equiv_body fuel body false ln env
  | false =>
      cases body with
      | nil => simp [_fill_body_with_record, fillItems, execBody, outcomeEnv, instrStep]
      | cons s rest =>
          have h1 : _fill_body_with_record (s :: rest) false ln
              = fillItem s ++ _fill_body_with_record rest false ln := by
            simp [_fill_body_with_record, fillItems]
          rw [h1, execBody_append]
          have hs := instr_equiv_stmt fuel s env
          cases hr : execStmt fuel s env with
          | none =>
              rw [hr] at hs
              have h2 := outcomeEnv_eq_none_iff.mp (by rw [hs]; rfl)
              simp [h2, execBody, hr, outcomeEnv]
          | some x =>
              obtain ⟨o, e1, d⟩ := x
              rw [hr] at hs
              cases o with
              | normal =>
                  have hs2 : outcomeEnv (execBody fuel (fillItem s) env)
                      = some (Outcome.normal, e1) := by rw [hs]; rfl
                  obtain ⟨d2, h2⟩ := outcomeEnv_eq_some_iff.mp hs2
                  simp [h2, execBody, hr, outcomeEnv_map_prependSnaps,
                    instr_equiv_body fuel rest false ln e1]
              | returned v =>
                  have hs2 : outcomeEnv (execBody fuel (fillItem s) env)
                      = some (Outcome.returned v, setEnv e1 RETVAL_NAME v) := by rw [hs]; rfl
                  obtain ⟨d2, h2⟩ := outcomeEnv_eq_some_iff.mp hs2
                  simp [h2, execBody, hr, outcomeEnv, instrStep]
              | raised exc =>
                  have hs2 : outcomeEnv (execBody fuel (fillItem s) env)
                      = some (Outcome.raised exc, e1) := by rw [hs]; rfl
                  obtain ⟨d2, h2⟩ := outcomeEnv_eq_some_iff.mp hs2
                  simp [h2, execBody, hr, outcomeEnv, instrStep]
termination_by (fuel, sizeOf body, if p then 1 else 0)
decreasing_by
  all_goals simp_wf
  all_goals first
    | (apply Prod.Lex.right
       first
         | (apply Prod.Lex.left
            first
              | omega
              | exact Nat.lt_add_of_pos_left (sizeOfListPos _)
              | exact Nat.lt_add_of_pos_right (sizeOfListPos _))
         | (apply Prod.Lex.right; omega))
    | (apply Prod.Lex.left
       first
         | omega
         | exact Nat.lt_add_of_pos_left (sizeOfListPos _)
         | exact Nat.lt_add_of_pos_right (sizeOfListPos _))

/-- Instrumenting one statement preserves its observable execution. -/
theorem instr_equiv_stmt (fuel : Nat) (s : Stmt) (env : Env) :
    outcomeEnv (execBody fuel (fillItem s) env)
      = (outcomeEnv (execStmt fuel s env)).map instrStep := by
  cases s with
  | passS l =>
      simp [fillItem, _make_record_state_call_expr, stmtLineno, execBody, execStmt, eval,
        outcomeEnv, instrStep, prependSnaps]
  | assign l x e =>
      rcases he : eval e env with ⟨r, d⟩
      cases r with
      | ok v =>
          simp [fillItem, _make_record_state_call_expr, stmtLineno, execBody, execStmt, eval,
            he, outcomeEnv, instrStep, prependSnaps]
      | error exc =>
          simp [fillItem, _make_record_state_call_expr, stmtLineno, execBody, execStmt, eval,
            he, outcomeEnv, instrStep, prependSnaps]
  | exprStmt l e =>
      rcases he : eval e env with ⟨r, d⟩
      cases r with
      | ok v =>
          simp [fillItem, _make_record_state_call_expr, stmtLineno, execBody, execStmt, eval,
            he, outcomeEnv, instrStep, prependSnaps]
      | error exc =>
          simp [fillItem, _make_record_state_call_expr, stmtLineno, execBody, execStmt, eval,
            he, outcomeEnv, instrStep, prependSnaps]
  | raiseS l exc =>
      simp [fillItem, _make_record_state_call_expr, stmtLineno, execBody, execStmt, eval,
        outcomeEnv, instrStep, prependSnaps]
  | ret l e =>
      rcases he : eval e env with ⟨r, d⟩
      cases r with
      | ok v =>
          simp [fillItem, _make_return_trace_call_exprs, _make_record_state_call_expr,
            execBody, execStmt, eval, he, outcomeEnv, instrStep, prependSnaps,
            lookupEnv_setEnv_self]
      | error exc =>
          simp [fillItem, _make_return_trace_call_exprs, _make_record_state_call_expr,
            execBody, execStmt, eval, he, outcomeEnv, instrStep, prependSnaps]
  | ifS l c b els =>
      simp only [fillItem]
      rw [outcomeEnv_execBody_singleton]
      rcases he : eval c env with ⟨r, d⟩
      cases r with
      | error exc => simp [execStmt, he, outcomeEnv, instrStep]
      | ok v =>
          cases ht : truthy v with
          | true =>
              simp [execStmt, he, ht, outcomeEnv_map_prependSnaps,
                instr_equiv_body fuel b true l env]
          | false =>
              simp [execStmt, he, ht, outcomeEnv_map_prependSnaps,
                instr_equiv_body fuel els true l env]
  | whileS l c b els =>
      simp only [fillItem]
      rw [outcomeEnv_execBody_singleton]
      conv_lhs => rw [execStmt_while_eq]
      conv_rhs => rw [execStmt_while_eq]
      rcases he : eval c env with ⟨r, d⟩
      cases r with
      | error exc => simp [he, outcomeEnv, instrStep]
      | ok v =>
          cases ht : truthy v with
          | false =>
              simp [he, ht, outcomeEnv_map_prependSnaps,
                instr_equiv_body fuel els true l env]
          | true =>
              cases fuel with
              | zero => simp [he, ht, outcomeEnv]
              | succ fuel1 =>
                  have hb := instr_equiv_body fuel1 b true l env
                  cases hr : execBody fuel1 b env with
                  | none =>
                      rw [hr] at hb
                      have h2 := outcomeEnv_eq_none_iff.mp (by rw [hb]; rfl)
                      simp [he, ht, hr, h2, outcomeEnv]
                  | some x =>
                      obtain ⟨o, e1, d2⟩ := x
                      rw [hr] at hb
                      cases o with
                      | normal =>
                          have hb2 : outcomeEnv (execBody fuel1
                                (_fill_body_with_record b true l) env)
                              = some (Outcome.normal, e1) := by rw [hb]; rfl
                          obtain ⟨d3, h3⟩ := outcomeEnv_eq_some_iff.mp hb2
                          have hw := instr_equiv_stmt fuel1 (.whileS l c b els) e1
                          rw [show fillItem (Stmt.whileS l c b els)
                                = [Stmt.whileS l c (_fill_body_with_record b true l)
                                    (_fill_body_with_record els true l)] from by simp [fillItem],
                            outcomeEnv_execBody_singleton] at hw
                          simp [he, ht, hr, h3, outcomeEnv_map_prependSnaps, hw]
                      | returned v2 =>
                          have hb2 : outcomeEnv (execBody fuel1
                                (_fill_body_with_record b true l) env)
                              = some (Outcome.returned v2, setEnv e1 RETVAL_NAME v2) := by
                            rw [hb]; rfl
                          obtain ⟨d3, h3⟩ := outcomeEnv_eq_some_iff.mp hb2
                          simp [he, ht, hr, h3, outcomeEnv, instrStep]
                      | raised exc =>
                          have hb2 : outcomeEnv (execBody fuel1
                                (_fill_body_with_record b true l) env)
                              = some (Outcome.raised exc, e1) := by rw [hb]; rfl
                          obtain ⟨d3, h3⟩ := outcomeEnv_eq_some_iff.mp hb2
                          simp [he, ht, hr, h3, outcomeEnv, instrStep]
  | forS l x it b els =>
      simp only [fillItem]
      rw [outcomeEnv_execBody_singleton]
      rcases he : eval it env with ⟨r, d⟩
      cases r with
      | error exc => simp [execStmt, he, outcomeEnv, instrStep]
      | ok v =>
          cases v with
          | list items =>
              simp [execStmt, he, outcomeEnv_map_prependSnaps,
                instr_equiv_for fuel x items b els l env]
          | none => simp [execStmt, he, outcomeEnv, instrStep]
          | bool b2 => simp [execStmt, he, outcomeEnv, instrStep]
          | int n => simp [execStmt, he, outcomeEnv, instrStep]
  | tryExcept l b hs els =>
      simp only [fillItem]
      rw [outcomeEnv_execBody_singleton]
      have hb := instr_equiv_body fuel b true l env
      cases hr : execBody fuel b env with
      | none =>
          rw [hr] at hb
          have h2 := outcomeEnv_eq_none_iff.mp (by rw [hb]; rfl)
          simp [execStmt, hr, h2, outcomeEnv]
      | some x =>
          obtain ⟨o, e1, d⟩ := x
          rw [hr] at hb
          cases o with
          | normal =>
              have hb2 : outcomeEnv (execBody fuel (_fill_body_with_record b true l) env)
                  = some (Outcome.normal, e1) := by rw [hb]; rfl
              obtain ⟨d2, h2⟩ := outcomeEnv_eq_some_iff.mp hb2
              simp [execStmt, hr, h2, outcomeEnv_map_prependSnaps,
                instr_equiv_body fuel els false l e1]
          | returned v =>
              have hb2 : outcomeEnv (execBody fuel (_fill_body_with_record b true l) env)
                  = some (Outcome.returned v, setEnv e1 RETVAL_NAME v) := by rw [hb]; rfl
              obtain ⟨d2, h2⟩ := outcomeEnv_eq_some_iff.mp hb2
              simp [execStmt, hr, h2, outcomeEnv, instrStep]
          | raised exc =>
              have hb2 : outcomeEnv (execBody fuel (_fill_body_with_record b true l) env)
                  = some (Outcome.raised exc, e1) := by rw [hb]; rfl
              obtain ⟨d2, h2⟩ := outcomeEnv_eq_some_iff.mp hb2
              simp [execStmt, hr, h2, outcomeEnv_map_prependSnaps,
                instr_equiv_handlers fuel exc hs e1]
termination_by (fuel, sizeOf s, 0)
decreasing_by
  all_goals simp_wf
  all_goals first
    | (apply Prod.Lex.right
       first
         | (apply Prod.Lex.left
            first
              | omega
              | exact Nat.lt_add_of_pos_left (sizeOfListPos _)
              | exact Nat.lt_add_of_pos_right (sizeOfListPos _))
         | (apply Prod.Lex.right; omega))
    | (apply Prod.Lex.left
       first
         | omega
         | exact Nat.lt_add_of_pos_left (sizeOfListPos _)
         | exact Nat.lt_add_of_pos_right (sizeOfListPos _))

/-- Instrumenting the body and `orelse` of a `for` loop preserves its
observable iteration. -/
theorem instr_equiv_for (fuel : Nat) (x : String) (items : List Value) (b els : List Stmt)
    (l : Nat) (env : Env) :
    outcomeEnv (execFor fuel x items (_fill_body_with_record b true l)
        (_fill_body_with_record els true l) env)
      = (outcomeEnv (execFor fuel x items b els env)).map instrStep := by
  cases items with
  | nil =>
      simp only [execFor]
      exact instr_equiv_body fuel els true l env
  | cons v vs =>
      have hb := instr_equiv_body fuel b true l (setEnv env x v)
      cases hr : execBody fuel b (setEnv env x v) with
      | none =>
          rw [hr] at hb
          have h2 := outcomeEnv_eq_none_iff.mp (by rw [hb]; rfl)
          simp [execFor, hr, h2, outcomeEnv]
      | some y =>
          obtain ⟨o, e1, d⟩ := y
          rw [hr] at hb
          cases o with
          | normal =>
              have hb2 : outcomeEnv (execBody fuel (_fill_body_with_record b true l)
                    (setEnv env x v)) = some (Outcome.normal, e1) := by rw [hb]; rfl
              obtain ⟨d2, h2⟩ := outcomeEnv_eq_some_iff.mp hb2
              simp [execFor, hr, h2, outcomeEnv_map_prependSnaps,
                instr_equiv_for fuel x vs b els l e1]
          | returned v2 =>
              have hb2 : outcomeEnv (execBody fuel (_fill_body_with_record b true l)
                    (setEnv env x v)) = some (Outcome.returned v2, setEnv e1 RETVAL_NAME v2) := by
                rw [hb]; rfl
              obtain ⟨d2, h2⟩ := outcomeEnv_eq_some_iff.mp hb2
              simp [execFor, hr, h2, outcomeEnv, instrStep]
          | raised exc =>
              have hb2 : outcomeEnv (execBody fuel (_fill_body_with_record b true l)
                    (setEnv env x v)) = some (Outcome.raised exc, e1) := by rw [hb]; rfl
              obtain ⟨d2, h2⟩ := outcomeEnv_eq_some_iff.mp hb2
              simp [execFor, hr, h2, outcomeEnv, instrStep]
termination_by (fuel, sizeOf b + sizeOf els, items.length + 1)
decreasing_by
  all_goals simp_wf
  all_goals first
    | (apply Prod.Lex.right
       first
         | (apply Prod.Lex.left
            first
              | omega
              | exact Nat.lt_add_of_pos_left (sizeOfListPos _)
              | exact Nat.lt_add_of_pos_right (sizeOfListPos _))
         | (apply Prod.Lex.right; omega))
    | (apply Prod.Lex.left
       first
         | omega
         | exact Nat.lt_add_of_pos_left (sizeOfListPos _)
         | exact Nat.lt_add_of_pos_right (sizeOfListPos _))

/-- Instrumenting handler bodies preserves observable handler selection and
execution. -/
theorem instr_equiv_handlers (fuel : Nat) (exc : ExcKind) (hs : List Handler) (env : Env) :
    outcomeEnv (execHandlers fuel exc (fillHandlers hs) env)
      = (outcomeEnv (execHandlers fuel exc hs env)).map instrStep := by
  cases hs with
  | nil => simp [fillHandlers, execHandlers, outcomeEnv, instrStep]
  | cons h rest =>
      obtain ⟨filt, hl, hbody⟩ := h
      cases hm : handlerMatches filt exc with
      | true =>
          simp only [fillHandlers, execHandlers, hm, if_true]
          exact instr_equiv_body fuel hbody false hl env
      | false =>
          simp only [fillHandlers, execHandlers, hm, if_false]
          exact instr_equiv_handlers fuel exc rest env
termination_by (fuel, sizeOf hs, 0)
decreasing_by
  all_goals simp_wf
  all_goals first
    | (apply Prod.Lex.right
       first
         | (apply Prod.Lex.left
            first
              | omega
              | exact Nat.lt_add_of_pos_left (sizeOfListPos _)
              | exact Nat.lt_add_of_pos_right (sizeOfListPos _))
         | (apply Prod.Lex.right; omega))
    | (apply Prod.Lex.left
       first
         | omega
         | exact Nat.lt_add_of_pos_left (sizeOfListPos _)
         | exact Nat.lt_add_of_pos_right (sizeOfListPos _))

end

/-- Claim C3: pass-through correctness of the wrapper.  For every function,
every argument list, every session state and every fuel bound, the wrapper
returned by the decorator produces exactly the call result of the original
undecorated function: the same return value, and the same exception when the
original raises (fuel exhaustion likewise coincides). -/
theorem wrapped_pass_through (fuel : Nat) (f : FnDef) (source : String)
    (args : List Value) (st : SessionState) :
    (wrapped fuel f source args st).map Prod.fst = callOriginal fuel f args := by
  have h := instr_equiv_body fuel f.body false 0 (initEnv f.params args)
  unfold wrapped callOriginal instrumentedBody
  cases hr : execBody fuel f.body (initEnv f.params args) with
  | none =>
      rw [hr] at h
      have h2 := outcomeEnv_eq_none_iff.mp (by rw [h]; rfl)
      simp [h2]
  | some x =>
      obtain ⟨o, e1, d⟩ := x
      rw [hr] at h
      cases o with
      | normal =>
          have h3 : outcomeEnv (execBody fuel (_fill_body_with_record f.body false 0)
                (initEnv f.params args)) = some (Outcome.normal, e1) := by rw [h]; rfl
          obtain ⟨d2, h2⟩ := outcomeEnv_eq_some_iff.mp h3
          simp [h2]
      | returned v =>
          have h3 : outcomeEnv (execBody fuel (_fill_body_with_record f.body false 0)
                (initEnv f.params args)) = some (Outcome.returned v, setEnv e1 RETVAL_NAME v) := by
            rw [h]; rfl
          obtain ⟨d2, h2⟩ := outcomeEnv_eq_some_iff.mp h3
          simp [h2]
      | raised exc =>
          have h3 : outcomeEnv (execBody fuel (_fill_body_with_record f.body false 0)
                (initEnv f.params args)) = some (Outcome.raised exc, e1) := by rw [h]; rfl
          obtain ⟨d2, h2⟩ := outcomeEnv_eq_some_iff.mp h3
          simp [h2]


/-! ## Concrete runs exhibiting the dump-protocol behaviour of `record.py`

`first_dump_call` is a closure variable of `record` that `wrapped` reads but
never reassigns, the record store is never reset between invocations, and
`record(f)` has no execution-cap parameter: the following runs evaluate the
model on small traced functions and exhibit the resulting trace files. -/

/-- Claim C5 evidence: tracing `def f(): pass` and invoking it twice writes a
source record before **every** execution dump — the file holds two source
records (`first_dump_call` is never set to `False`), not exactly one. -/
theorem source_record_dumped_every_invocation :
    (runCalls 5 ⟨[], [.passS 2]⟩ "s" [[], []] initSession
      = some ([.ok .none, .ok .none],
          { store_data := [(2, []), (2, [])], first_dump_call := true,
            file := [.sourceDump "s", .executionDump [(2, [])],
                     .sourceDump "s", .executionDump [(2, []), (2, [])]] }))
    ∧ (List.filter isSourceDump
        [TraceLine.sourceDump "s", TraceLine.executionDump [(2, [])],
         TraceLine.sourceDump "s", TraceLine.executionDump [(2, []), (2, [])]]).length = 2 := by
  refine ⟨?_, rfl⟩
  simp [runCalls, wrapped, instrumentedBody, _fill_body_with_record, fillItems, fillItem,
    _make_record_state_call_expr, stmtLineno, execBody, execStmt, eval, prependSnaps, initEnv,
    initSession, dump_fn_source, dump_recorded_state]

/-- Claim C6 evidence: tracing `def f(): x = 1` and invoking it twice.  The
record store is never reset at the start of an invocation, so the second
execution dump contains the first invocation's snapshot as well as its own:
its data is `[(2, x=1), (2, x=1)]` although the second invocation captured
exactly one snapshot. -/
theorem execution_dump_accumulates_previous_invocations :
    (wrapped 5 ⟨[], [.assign 2 "x" (.const (.int 1))]⟩ "s" [] initSession
      = some (.ok .none,
          { store_data := [(2, [("x", .int 1)])], first_dump_call := true,
            file := [.sourceDump "s", .executionDump [(2, [("x", .int 1)])]] }))
    ∧ (wrapped 5 ⟨[], [.assign 2 "x" (.const (.int 1))]⟩ "s" []
        { store_data := [(2, [("x", .int 1)])], first_dump_call := true,
          file := [.sourceDump "s", .executionDump [(2, [("x", .int 1)])]] }
      = some (.ok .none,
          { store_data := [(2, [("x", .int 1)]), (2, [("x", .int 1)])],
            first_dump_call := true,
            file := [.sourceDump "s", .executionDump [(2, [("x", .int 1)])],
                     .sourceDump "s",
                     .executionDump [(2, [("x", .int 1)]), (2, [("x", .int 1)])]] })) := by
  constructor <;>
    simp [wrapped, instrumentedBody, _fill_body_with_record, fillItems, fillItem,
      _make_record_state_call_expr, stmtLineno, execBody, execStmt, eval, prependSnaps,
      initEnv, initSession, dump_fn_source, dump_recorded_state, setEnv]

/-- Claim C7 evidence: `record(f)` has no execution-cap parameter, and
`wrapped` dumps an execution record on every successful invocation: tracing
`def f(): x = 5` and calling it twice yields two execution records, not the
one record a default cap of 1 would allow. -/
theorem no_execution_cap_every_invocation_dumped :
    (runCalls 5 ⟨[], [.assign 2 "x" (.const (.int 5))]⟩ "s" [[], []] initSession
      = some ([.ok .none, .ok .none],
          { store_data := [(2, [("x", .int 5)]), (2, [("x", .int 5)])],
            first_dump_call := true,
            file := [.sourceDump "s", .executionDump [(2, [("x", .int 5)])],
                     .sourceDump "s",
                     .executionDump [(2, [("x", .int 5)]), (2, [("x", .int 5)])]] }))
    ∧ (List.filter isExecutionDump
        [TraceLine.sourceDump "s", TraceLine.executionDump [(2, [("x", .int 5)])],
         TraceLine.sourceDump "s",
         TraceLine.executionDump [(2, [("x", .int 5)]), (2, [("x", .int 5)])]]).length
        = 2 := by
  refine ⟨?_, rfl⟩
  simp [runCalls, wrapped, instrumentedBody, _fill_body_with_record, fillItems, fillItem,
    _make_record_state_call_expr, stmtLineno, execBody, execStmt, eval, prependSnaps, initEnv,
    initSession, dump_fn_source, dump_recorded_state, setEnv]

/-- Claim C8 evidence: tracing `def f(x): y = 1; 1 / x`.  Invoking it with
`x = 0` raises `ZeroDivisionError`: the exception propagates and nothing is
dumped for that invocation — but its captured snapshot `(2, x=0, y=1)` stays
in the shared record store, and a following successful invocation (`x = 1`)
dumps an execution record that includes it. -/
theorem raised_invocation_snapshots_leak_into_later_dump :
    (wrapped 5 ⟨["x"], [.assign 2 "y" (.const (.int 1)),
        .exprStmt 3 (.binop .div (.const (.int 1)) (.name "x"))]⟩ "s" [.int 0] initSession
      = some (.error .zeroDivisionError,
          { store_data := [(2, [("x", .int 0), ("y", .int 1)])], first_dump_call := true,
            file := [] }))
    ∧ (runCalls 5 ⟨["x"], [.assign 2 "y" (.const (.int 1)),
        .exprStmt 3 (.binop .div (.const (.int 1)) (.name "x"))]⟩ "s"
        [[.int 0], [.int 1]] initSession
      = some ([.error .zeroDivisionError, .ok .none],
          { store_data := [(2, [("x", .int 0), ("y", .int 1)]),
                           (2, [("x", .int 1), ("y", .int 1)]),
                           (3, [("x", .int 1), ("y", .int 1)])],
            first_dump_call := true,
            file := [.sourceDump "s",
                     .executionDump [(2, [("x", .int 0), ("y", .int 1)]),
                                     (2, [("x", .int 1), ("y", .int 1)]),
                                     (3, [("x", .int 1), ("y", .int 1)])]] })) := by
  constructor <;>
    simp [runCalls, wrapped, instrumentedBody, _fill_body_with_record, fillItems, fillItem,
      _make_record_state_call_expr, stmtLineno, execBody, execStmt, eval, evalBinOp,
      prependSnaps, initEnv, initSession, dump_fn_source, dump_recorded_state, setEnv,
      lookupEnv]

end ExecutionTrace
